import Mathlib

/-!
Shallow embedding of the k8s eviction-request controller core:
the dispatcher (`ReconcileEvictionRequest`), the interceptor state machine
(`Handle` and its helpers), the terminal eviction performer (`Perform`) and
the status manager (`UpsertCondition`, `IncrementFailedEvictionCounter`).

Statuses and specs are modelled as records mirroring the `v1alpha1` Go types;
timestamps are seconds as `Int`; pointer-typed optional fields are `Option`.
External collaborators (pod lister, eviction API, update-status call) are an
explicit environment `Env` fixed for one invocation.  A nil-pointer
dereference in the Go code is modelled by the `Outcome.panicked` result.
-/

namespace EvictionController

/-- Model of `metav1.ConditionStatus`: True / False / Unknown. -/
inductive ConditionStatus where
  | cTrue
  | cFalse
  | cUnknown
deriving DecidableEq

/-- Model of `metav1.Condition` (the fields the controller reads or writes). -/
structure Condition where
  ctype : String
  status : ConditionStatus
  lastTransitionTime : Int
  reason : String
  message : String
deriving DecidableEq

/-- Model of `v1alpha1.PodEvictionStatus`.  The Go field is an `int32`; its
value always lies in `[-2147483648, 2147483648)` and the controller's only
write to it goes through `wrap32`. -/
structure PodEvictionStatus where
  failedAPIEvictionCounter : Int
deriving DecidableEq

/-- Model of `v1alpha1.EvictionRequestStatus`. -/
structure EvictionRequestStatus where
  conditions : List Condition
  message : String
  activeInterceptorClass : Option String
  activeInterceptorCompleted : Bool
  heartbeatTime : Option Int
  expectedInterceptorFinishTime : Option Int
  evictionRequestCancellationPolicy : String
  podEvictionStatus : Option PodEvictionStatus
deriving DecidableEq

/-- Model of `v1alpha1.Interceptor`. -/
structure Interceptor where
  interceptorClass : String
  priority : Int
  role : Option String
deriving DecidableEq

/-- Model of `v1alpha1.LocalPodReference`. -/
structure LocalPodReference where
  name : String
  uid : String
deriving DecidableEq

/-- Model of `v1alpha1.EvictionTarget`. -/
structure EvictionTarget where
  podRef : Option LocalPodReference
deriving DecidableEq

/-- Model of `v1alpha1.EvictionRequestSpec`. -/
structure EvictionRequestSpec where
  rtype : String
  target : EvictionTarget
  requesters : List String
  interceptors : List Interceptor
  heartbeatDeadlineSeconds : Option Int
deriving DecidableEq

/-- Constant `v1alpha1.Allow`. -/
def Allow : String := "Allow"

/-- Constant `constants.ConditionTypeReady`. -/
def ConditionTypeReady : String := "Ready"

/-- Constant `constants.ConditionTypeEvicted`. -/
def ConditionTypeEvicted : String := "Evicted"

/-- Constant `constants.ReasonPodNotFound`. -/
def ReasonPodNotFound : String := "PodNotFound"

/-- Constant `constants.ReasonEvictionSucceeded`. -/
def ReasonEvictionSucceeded : String := "EvictionSucceeded"

/-- Constant `constants.ReasonEvictionFailed`. -/
def ReasonEvictionFailed : String := "EvictionFailed"

/-- The errors the embedded code can return. -/
inductive Err where
  | nilPodRef
  | podGetError
  | evictionAPIError
  | updateStatusError
deriving DecidableEq

/-- Result of the pod lister `Get` for the target's name. -/
inductive PodGet where
  | found (uid : String)
  | notFound
  | getError
deriving DecidableEq

/-- External collaborators for one invocation: the pod lookup result, whether
the eviction API call fails, whether `UpdateStatus` fails, and the clock. -/
structure Env where
  podGet : PodGet
  evictErr : Bool
  updateStatusErr : Bool
  now : Int
deriving DecidableEq

/-- The error result of one `UpdateStatus` call in environment `env`. -/
def updateStatusErrOf (env : Env) : Option Err :=
  if env.updateStatusErr then some .updateStatusError else none

/-- The loop of `status.UpsertCondition` (part_005 lines 50-62): replace the
first condition of the given type, preserving its transition time when the
status value is unchanged; report whether a condition was found. -/
def upsertLoop (conds : List Condition) (t : String) (st : ConditionStatus)
    (rn m : String) (now : Int) : List Condition × Bool :=
  match conds with
  | [] => ([], false)
  | e :: rest =>
    if e.ctype = t then
      (⟨t, st, if e.status ≠ st then now else e.lastTransitionTime, rn, m⟩ :: rest, true)
    else
      let pr := upsertLoop rest t st rn m now
      (e :: pr.1, pr.2)

/-- The conditions list produced by `status.UpsertCondition`: replace the first
match, or append a new condition with transition time `now`. -/
def upsertConds (conds : List Condition) (t : String) (st : ConditionStatus)
    (rn m : String) (now : Int) : List Condition :=
  let pr := upsertLoop conds t st rn m now
  if pr.2 then pr.1 else pr.1 ++ [⟨t, st, now, rn, m⟩]

/-- The status mutation of `status.UpsertCondition` (part_005 lines 40-70):
upsert the condition, then default the cancellation policy when unset. -/
def upsertConditionPure (s : EvictionRequestStatus) (t : String)
    (st : ConditionStatus) (rn m : String) (now : Int) : EvictionRequestStatus :=
  { s with
    conditions := upsertConds s.conditions t st rn m now,
    evictionRequestCancellationPolicy :=
      if s.evictionRequestCancellationPolicy = "" then Allow
      else s.evictionRequestCancellationPolicy }

/-- Result of a status-manager call: the mutated status, the returned error,
and the statuses passed to `UpdateStatus` (persist attempts). -/
structure MResult where
  status : EvictionRequestStatus
  error : Option Err
  persists : List EvictionRequestStatus
deriving DecidableEq

/-- Embedding of `status.UpsertCondition`: mutate, then persist once via `UpdateStatus`. -/
def UpsertCondition (s : EvictionRequestStatus) (t : String)
    (st : ConditionStatus) (rn m : String) (env : Env) : MResult :=
  let s' := upsertConditionPure s t st rn m env.now
  ⟨s', updateStatusErrOf env, [s']⟩

/-- Two's-complement wraparound of Go's `int32` arithmetic: the unique value
congruent to `x` modulo `2^32` lying in `[-2147483648, 2147483648)`. -/
def wrap32 (x : Int) : Int :=
  (x + 2147483648) % 4294967296 - 2147483648

/-- Embedding of `status.IncrementFailedEvictionCounter` (part_005 lines 81-97): lazily
initialize `PodEvictionStatus`, increment the counter (an `int32` `++`,
which wraps at the type's boundary), default the cancellation policy, then
persist through `UpsertCondition` with the fixed eviction-failure
condition. -/
def IncrementFailedEvictionCounter (s : EvictionRequestStatus) (env : Env) : MResult :=
  let prev : Int :=
    match s.podEvictionStatus with
    | none => 0
    | some p => p.failedAPIEvictionCounter
  let s1 : EvictionRequestStatus :=
    { s with
      podEvictionStatus := some ⟨wrap32 (prev + 1)⟩,
      evictionRequestCancellationPolicy :=
        if s.evictionRequestCancellationPolicy = "" then Allow
        else s.evictionRequestCancellationPolicy }
  UpsertCondition s1 ConditionTypeEvicted .cFalse ReasonEvictionFailed "Failed to evict pod" env

/-- Result of one invocation of a reconciler component: final in-memory
status, returned error, persist attempts, whether the eviction API was
called, whether the eviction performer ran, whether the performer's
nil-target defensive branch was hit, and which interceptor class (if any)
was selected during the invocation. -/
structure RResult where
  status : EvictionRequestStatus
  error : Option Err
  persists : List EvictionRequestStatus
  evictCalled : Bool
  performCalled : Bool
  nilBranchHit : Bool
  selected : Option String
deriving DecidableEq

/-- Embedding of `eviction.Perform` (part_004 lines 165-202).  Note that the Go code
ignores the error results of `UpsertCondition` and
`IncrementFailedEvictionCounter` (statements at lines 194 and 199), which
the embedding mirrors by dropping `MResult.error`. -/
def Perform (spec : EvictionRequestSpec) (s : EvictionRequestStatus) (env : Env) : RResult :=
  match spec.target.podRef with
  | none =>
    let m := UpsertCondition s ConditionTypeReady .cFalse ReasonPodNotFound
      "EvictionRequest.Spec.Target.PodRef cannot be nil" env
    ⟨m.status, some .nilPodRef, m.persists, false, true, true, none⟩
  | some _ =>
    match env.podGet with
    | .notFound => ⟨s, none, [], false, true, false, none⟩
    | .getError => ⟨s, some .podGetError, [], false, true, false, none⟩
    | .found _ =>
      if env.evictErr then
        let m := IncrementFailedEvictionCounter s env
        ⟨m.status, some .evictionAPIError, m.persists, true, true, false, none⟩
      else
        let m := UpsertCondition s ConditionTypeEvicted .cTrue ReasonEvictionSucceeded
          "Pod evicted successfully" env
        ⟨m.status, none, m.persists, true, true, false, none⟩

/-- Embedding of `interceptor.sortInterceptorsByPriority`: sort by priority, highest
first.  Go uses `sort.Slice`, whose order on equal priorities is
unspecified; the embedding fixes a stable insertion sort with the same
comparator. -/
def sortInterceptorsByPriority (l : List Interceptor) : List Interceptor :=
  List.insertionSort (fun a b => b.priority ≤ a.priority) l

/-- Index of the first interceptor with the given class, if any
(helper for `findInterceptorIndex`). -/
def findInterceptorIndexNat (l : List Interceptor) (c : String) : Option Nat :=
  match l with
  | [] => none
  | i :: rest =>
    if i.interceptorClass = c then some 0
    else (findInterceptorIndexNat rest c).map (· + 1)

/-- Embedding of `interceptor.findInterceptorIndex`: index of the interceptor with the
given class in the list, `-1` when absent. -/
def findInterceptorIndex (l : List Interceptor) (c : String) : Int :=
  match findInterceptorIndexNat l c with
  | some n => (n : Int)
  | none => -1

/-- Outcome of an invocation: a normal result, or a runtime panic
(nil-pointer dereference or out-of-bounds index in the Go code). -/
inductive Outcome where
  | panicked
  | ok (r : RResult)
deriving DecidableEq

/-- Embedding of `interceptor.selectInitialInterceptor`: select `interceptors[0]`
(a panic when the slice is empty) and persist. -/
def selectInitialInterceptor (s : EvictionRequestStatus) (env : Env)
    (interceptors : List Interceptor) : Outcome :=
  match interceptors with
  | [] => .panicked
  | h :: _ =>
    let s' := { s with activeInterceptorClass := some h.interceptorClass }
    .ok ⟨s', updateStatusErrOf env, [s'], false, false, false, some h.interceptorClass⟩

/-- Embedding of `interceptor.selectNextInterceptor`: select `interceptors[currentIndex+1]`
and persist.  The Go code does not reset `ActiveInterceptorCompleted`. -/
def selectNextInterceptor (s : EvictionRequestStatus) (env : Env)
    (interceptors : List Interceptor) (currentIndex : Nat) : Outcome :=
  match interceptors.get? (currentIndex + 1) with
  | none => .panicked
  | some nxt =>
    let s' := { s with activeInterceptorClass := some nxt.interceptorClass }
    .ok ⟨s', updateStatusErrOf env, [s'], false, false, false, some nxt.interceptorClass⟩

/-- Embedding of `interceptor.handleCompletedInterceptor`: advance to the next interceptor
in sorted order if one exists, else delegate to the eviction performer. -/
def handleCompletedInterceptor (spec : EvictionRequestSpec)
    (s : EvictionRequestStatus) (env : Env)
    (interceptors : List Interceptor) (c : String) : Outcome :=
  let currentIndex := findInterceptorIndex interceptors c
  if 0 ≤ currentIndex ∧ currentIndex + 1 < (interceptors.length : Int) then
    selectNextInterceptor s env interceptors currentIndex.toNat
  else
    .ok (Perform spec s env)

/-- Embedding of `interceptor.markInterceptorAsCompleted`: set
`ActiveInterceptorCompleted` and persist. -/
def markInterceptorAsCompleted (s : EvictionRequestStatus) (env : Env) : Outcome :=
  let s' := { s with activeInterceptorCompleted := true }
  .ok ⟨s', updateStatusErrOf env, [s'], false, false, false, none⟩

/-- Embedding of `interceptor.checkInterceptorTimeout`: when both the deadline and the
heartbeat are set and the deadline is exceeded, mark the active interceptor
completed; otherwise a no-op returning no error. -/
def checkInterceptorTimeout (spec : EvictionRequestSpec)
    (s : EvictionRequestStatus) (env : Env) : Outcome :=
  match spec.heartbeatDeadlineSeconds, s.heartbeatTime with
  | some d, some t =>
    if env.now - t > d then markInterceptorAsCompleted s env
    else .ok ⟨s, none, [], false, false, false, none⟩
  | _, _ => .ok ⟨s, none, [], false, false, false, none⟩

/-- Embedding of `interceptor.Handle` (interceptor.go lines 51-66): the three-state
interceptor machine. -/
def Handle (spec : EvictionRequestSpec) (s : EvictionRequestStatus) (env : Env) : Outcome :=
  let interceptors := sortInterceptorsByPriority spec.interceptors
  match s.activeInterceptorClass with
  | none => selectInitialInterceptor s env interceptors
  | some c =>
    if c = "" then selectInitialInterceptor s env interceptors
    else if s.activeInterceptorCompleted then
      handleCompletedInterceptor spec s env interceptors c
    else
      checkInterceptorTimeout spec s env

/-- Embedding of `reconciler.ReconcileEvictionRequest` (part_004 lines 78-111): resolve the
target pod (the Go code dereferences `Spec.Target.PodRef.Name` before any nil
check, hence `panicked` on a nil reference), check the UID, default the
cancellation policy once, then route to the interceptor machine or directly
to the eviction performer. -/
def ReconcileEvictionRequest (spec : EvictionRequestSpec)
    (s : EvictionRequestStatus) (env : Env) : Outcome :=
  match spec.target.podRef with
  | none => .panicked
  | some ref =>
    match env.podGet with
    | .notFound => .ok ⟨s, none, [], false, false, false, none⟩
    | .getError => .ok ⟨s, some .podGetError, [], false, false, false, none⟩
    | .found uid =>
      if uid ≠ ref.uid then .ok ⟨s, none, [], false, false, false, none⟩
      else
        let step :=
          if s.evictionRequestCancellationPolicy = "" then
            let s' := { s with evictionRequestCancellationPolicy := Allow }
            (s', updateStatusErrOf env, [s'])
          else (s, (none : Option Err), ([] : List EvictionRequestStatus))
        match step.2.1 with
        | some e => .ok ⟨step.1, some e, step.2.2, false, false, false, none⟩
        | none =>
          if 0 < spec.interceptors.length then
            match Handle spec step.1 env with
            | .panicked => .panicked
            | .ok r => .ok { r with persists := step.2.2 ++ r.persists }
          else
            let pr := Perform spec step.1 env
            .ok { pr with persists := step.2.2 ++ pr.persists }

/-- The failed-eviction counter of a status (0 while the substructure is
not initialized). -/
def counterOf (s : EvictionRequestStatus) : Int :=
  match s.podEvictionStatus with
  | none => 0
  | some p => p.failedAPIEvictionCounter

/-- First condition of the given type. -/
def getCondition (s : EvictionRequestStatus) (t : String) : Option Condition :=
  s.conditions.find? (fun c => c.ctype = t)

/-- Status after one dispatcher invocation, `none` on a panic. -/
def reconcileStatus (spec : EvictionRequestSpec) (s : EvictionRequestStatus)
    (env : Env) : Option EvictionRequestStatus :=
  match ReconcileEvictionRequest spec s env with
  | .panicked => none
  | .ok r => some r.status

end EvictionController

namespace EvictionController

/-- Result of `Handle` as an `Option`, for concrete evaluation. -/
def handleResult (spec : EvictionRequestSpec) (s : EvictionRequestStatus)
    (env : Env) : Option RResult :=
  match Handle spec s env with
  | .panicked => none
  | .ok r => some r

/-- Fixture: spec with interceptors `{a:10, b:20}` targeting pod `p` with UID `u`. -/
def specAB : EvictionRequestSpec :=
  ⟨"Soft", ⟨some ⟨"p", "u"⟩⟩, ["r1"], [⟨"a", 10, none⟩, ⟨"b", 20, none⟩], some 1800⟩

/-- Fixture: spec with no interceptors. -/
def specNoInt : EvictionRequestSpec :=
  ⟨"Soft", ⟨some ⟨"p", "u"⟩⟩, ["r1"], [], some 1800⟩

/-- Fixture: spec with a nil pod reference. -/
def specNilRef : EvictionRequestSpec :=
  ⟨"Soft", ⟨none⟩, ["r1"], [], some 1800⟩

/-- Fixture: a fresh, empty status. -/
def statusEmpty : EvictionRequestStatus :=
  ⟨[], "", none, false, none, none, "", none⟩

/-- Fixture: active interceptor `b`, completed (Scenario B input). -/
def statusActiveB : EvictionRequestStatus :=
  ⟨[], "", some "b", true, none, none, "Allow", none⟩

/-- Fixture: environment where the pod is found with the expected UID and all
external calls succeed. -/
def envOK : Env := ⟨.found "u", false, false, 1000⟩

/-- Fixture: environment where the eviction API call fails. -/
def envEvictFail : Env := ⟨.found "u", true, false, 1000⟩

/-- Fixture: environment where the eviction succeeds but `UpdateStatus` fails. -/
def envPersistFail : Env := ⟨.found "u", false, true, 1000⟩

/-- Fixture: active interceptor `b`, pending, with a heartbeat at time 100. -/
def statusPendingB : EvictionRequestStatus :=
  ⟨[], "", some "b", false, some 100, none, "Allow", none⟩

/-- Fixture: active interceptor `a` (last in priority order), completed. -/
def statusLastA : EvictionRequestStatus :=
  ⟨[], "", some "a", true, none, none, "Allow", none⟩

/-- Fixture: a status holding one `Evicted` condition from time 50. -/
def statusWithCond : EvictionRequestStatus :=
  ⟨[⟨"Evicted", .cTrue, 50, "EvictionSucceeded", "m"⟩], "", none, false, none, none, "", none⟩

/-- Fixture: a status whose failed-eviction counter sits at the `int32`
maximum. -/
def statusMaxCounter : EvictionRequestStatus :=
  ⟨[], "", none, false, none, none, "Allow", some ⟨2147483647⟩⟩

/-- Fixture: environment at time 5000, well past the heartbeat deadline. -/
def envLate : Env := ⟨.found "u", false, false, 5000⟩

/-! ### Lemmas about the status manager -/

theorem upsertPure_activeClass (s : EvictionRequestStatus) (t : String)
    (st : ConditionStatus) (rn m : String) (now : Int) :
    (upsertConditionPure s t st rn m now).activeInterceptorClass = s.activeInterceptorClass := rfl

theorem upsertPure_completed (s : EvictionRequestStatus) (t : String)
    (st : ConditionStatus) (rn m : String) (now : Int) :
    (upsertConditionPure s t st rn m now).activeInterceptorCompleted = s.activeInterceptorCompleted := rfl

theorem upsertPure_heartbeat (s : EvictionRequestStatus) (t : String)
    (st : ConditionStatus) (rn m : String) (now : Int) :
    (upsertConditionPure s t st rn m now).heartbeatTime = s.heartbeatTime := rfl

theorem upsertPure_pes (s : EvictionRequestStatus) (t : String)
    (st : ConditionStatus) (rn m : String) (now : Int) :
    (upsertConditionPure s t st rn m now).podEvictionStatus = s.podEvictionStatus := rfl

theorem counterOf_upsertPure (s : EvictionRequestStatus) (t : String)
    (st : ConditionStatus) (rn m : String) (now : Int) :
    counterOf (upsertConditionPure s t st rn m now) = counterOf s := rfl

theorem upsertConds_cons_ne (e : Condition) (rest : List Condition) (t : String)
    (st : ConditionStatus) (rn m : String) (now : Int) (he : ¬(e.ctype = t)) :
    upsertConds (e :: rest) t st rn m now = e :: upsertConds rest t st rn m now := by
  simp only [upsertConds, upsertLoop, if_neg he]
  by_cases h2 : (upsertLoop rest t st rn m now).2
  · simp [h2]
  · simp [h2]

theorem find?_upsertConds (conds : List Condition) (t : String) (st : ConditionStatus)
    (rn m : String) (now : Int) :
    (upsertConds conds t st rn m now).find? (fun c => c.ctype = t) =
      some ⟨t, st,
        (match conds.find? (fun c => c.ctype = t) with
         | some old => if old.status ≠ st then now else old.lastTransitionTime
         | none => now), rn, m⟩ := by
  induction conds with
  | nil => simp [upsertConds, upsertLoop, List.find?]
  | cons e rest ih =>
    by_cases he : e.ctype = t
    · simp [upsertConds, upsertLoop, he, List.find?]
    · rw [upsertConds_cons_ne e rest t st rn m now he]
      simp only [List.find?]
      rw [show (decide (e.ctype = t)) = false from decide_eq_false he]
      exact ih

theorem getCondition_upsertPure (s : EvictionRequestStatus) (t : String)
    (st : ConditionStatus) (rn m : String) (now : Int) :
    getCondition (upsertConditionPure s t st rn m now) t =
      some ⟨t, st,
        (match getCondition s t with
         | some old => if old.status ≠ st then now else old.lastTransitionTime
         | none => now), rn, m⟩ := by
  simp only [getCondition, upsertConditionPure]
  exact find?_upsertConds s.conditions t st rn m now

end EvictionController

namespace EvictionController

theorem upsertLoop_snd (conds : List Condition) (t : String) (st : ConditionStatus)
    (rn m : String) (now : Int) :
    (upsertLoop conds t st rn m now).2 = (conds.find? (fun c => c.ctype = t)).isSome := by
  induction conds with
  | nil => simp [upsertLoop, List.find?]
  | cons e rest ih =>
    by_cases he : e.ctype = t
    · simp [upsertLoop, he, List.find?]
    · simp only [upsertLoop, if_neg he, List.find?]
      rw [show (decide (e.ctype = t)) = false from decide_eq_false he]
      exact ih

theorem map_ctype_upsertLoop (conds : List Condition) (t : String) (st : ConditionStatus)
    (rn m : String) (now : Int) :
    ((upsertLoop conds t st rn m now).1).map Condition.ctype = conds.map Condition.ctype := by
  induction conds with
  | nil => simp [upsertLoop]
  | cons e rest ih =>
    by_cases he : e.ctype = t
    · simp [upsertLoop, he]
    · simp only [upsertLoop, if_neg he, List.map_cons]
      rw [ih]

theorem map_ctype_upsertConds (conds : List Condition) (t : String) (st : ConditionStatus)
    (rn m : String) (now : Int) :
    (upsertConds conds t st rn m now).map Condition.ctype =
      if (conds.find? (fun c => c.ctype = t)).isSome then conds.map Condition.ctype
      else conds.map Condition.ctype ++ [t] := by
  simp only [upsertConds, upsertLoop_snd]
  by_cases h : (conds.find? (fun c => c.ctype = t)).isSome
  · simp only [h, if_true]
    exact map_ctype_upsertLoop conds t st rn m now
  · simp [h, map_ctype_upsertLoop]

theorem nodup_upsertConds (conds : List Condition) (t : String) (st : ConditionStatus)
    (rn m : String) (now : Int) (hnd : (conds.map Condition.ctype).Nodup) :
    ((upsertConds conds t st rn m now).map Condition.ctype).Nodup := by
  rw [map_ctype_upsertConds]
  by_cases h : (conds.find? (fun c => c.ctype = t)).isSome
  · simpa [h] using hnd
  · have hnone : conds.find? (fun c => c.ctype = t) = none := by
      cases hfind : conds.find? (fun c => c.ctype = t) with
      | none => rfl
      | some v => rw [hfind] at h; simp at h
    have hnotmem : t ∉ conds.map Condition.ctype := by
      intro hmem
      rcases List.mem_map.mp hmem with ⟨c, hc, hct⟩
      have := List.find?_eq_none.mp hnone c hc
      simp [hct] at this
    simp only [h, Bool.false_eq_true, if_false]
    rw [List.nodup_append]
    refine ⟨hnd, List.nodup_singleton t, ?_⟩
    intro a ha hb
    rw [List.mem_singleton] at hb
    exact hnotmem (by rwa [hb] at ha)

theorem upsertConds_idem (conds : List Condition) (t : String) (st : ConditionStatus)
    (rn m : String) (now : Int) :
    upsertConds (upsertConds conds t st rn m now) t st rn m now =
      upsertConds conds t st rn m now := by
  induction conds with
  | nil => simp [upsertConds, upsertLoop]
  | cons e rest ih =>
    by_cases he : e.ctype = t
    · simp [upsertConds, upsertLoop, he]
    · rw [upsertConds_cons_ne e rest t st rn m now he,
          upsertConds_cons_ne e _ t st rn m now he, ih]

theorem upsertPure_idem (s : EvictionRequestStatus) (t : String) (st : ConditionStatus)
    (rn m : String) (now : Int) :
    upsertConditionPure (upsertConditionPure s t st rn m now) t st rn m now =
      upsertConditionPure s t st rn m now := by
  simp only [upsertConditionPure, upsertConds_idem]
  by_cases hp : s.evictionRequestCancellationPolicy = ""
  · simp [hp, Allow]
  · simp [hp]

theorem upsertPure_policy_ne_empty (s : EvictionRequestStatus) (t : String)
    (st : ConditionStatus) (rn m : String) (now : Int)
    (h : s.evictionRequestCancellationPolicy ≠ "") :
    (upsertConditionPure s t st rn m now).evictionRequestCancellationPolicy =
      s.evictionRequestCancellationPolicy := by
  simp [upsertConditionPure, h]

theorem upsertPure_policy_default (s : EvictionRequestStatus) (t : String)
    (st : ConditionStatus) (rn m : String) (now : Int)
    (h : s.evictionRequestCancellationPolicy = "") :
    (upsertConditionPure s t st rn m now).evictionRequestCancellationPolicy = Allow := by
  simp [upsertConditionPure, h]

end EvictionController

namespace EvictionController

/-! ### Lemmas about interceptor ordering -/

instance : IsTotal Interceptor (fun a b => b.priority ≤ a.priority) :=
  ⟨fun a b => le_total b.priority a.priority⟩

instance : IsTrans Interceptor (fun a b => b.priority ≤ a.priority) :=
  ⟨fun _ _ _ hab hbc => le_trans hbc hab⟩

theorem sortInterceptors_perm (l : List Interceptor) :
    (sortInterceptorsByPriority l).Perm l := by
  unfold sortInterceptorsByPriority
  exact List.perm_insertionSort (fun a b => b.priority ≤ a.priority) l

theorem sortInterceptors_length (l : List Interceptor) :
    (sortInterceptorsByPriority l).length = l.length :=
  (sortInterceptors_perm l).length_eq

theorem sortInterceptors_ne_nil (l : List Interceptor) (h : l ≠ []) :
    sortInterceptorsByPriority l ≠ [] := by
  intro hnil
  apply h
  have := sortInterceptors_length l
  rw [hnil] at this
  exact List.length_eq_zero.mp this.symm

theorem sortInterceptors_head_max (l : List Interceptor) (h : Interceptor)
    (rest : List Interceptor) (hs : sortInterceptorsByPriority l = h :: rest) :
    ∀ i ∈ l, i.priority ≤ h.priority := by
  intro i hi
  have hperm := sortInterceptors_perm l
  rw [hs] at hperm
  have hsorted : List.Sorted (fun a b => b.priority ≤ a.priority)
      (sortInterceptorsByPriority l) :=
    List.sorted_insertionSort (fun a b => b.priority ≤ a.priority) l
  rw [hs] at hsorted
  have hmem : i ∈ h :: rest := hperm.mem_iff.mpr hi
  rcases List.mem_cons.mp hmem with heq | hrest
  · rw [heq]
  · exact (List.sorted_cons.mp hsorted).1 i hrest

theorem sortInterceptors_nodup_classes (l : List Interceptor)
    (hnd : (l.map Interceptor.interceptorClass).Nodup) :
    ((sortInterceptorsByPriority l).map Interceptor.interceptorClass).Nodup := by
  exact ((sortInterceptors_perm l).map Interceptor.interceptorClass).nodup_iff.mpr hnd

/-! ### Lemmas about `findInterceptorIndex` -/

theorem findNat_of_get? (l : List Interceptor) (n : Nat) (x : Interceptor)
    (hnd : (l.map Interceptor.interceptorClass).Nodup)
    (hget : l.get? n = some x) :
    findInterceptorIndexNat l x.interceptorClass = some n := by
  induction l generalizing n with
  | nil => simp at hget
  | cons e rest ih =>
    cases n with
    | zero =>
      simp only [List.get?] at hget
      injection hget with hx
      rw [← hx]
      simp [findInterceptorIndexNat]
    | succ k =>
      simp only [List.get?] at hget
      have hxmem : x ∈ rest := List.get?_mem hget
      have hne : ¬(e.interceptorClass = x.interceptorClass) := by
        intro hcl
        have : e.interceptorClass ∈ rest.map Interceptor.interceptorClass :=
          List.mem_map.mpr ⟨x, hxmem, hcl.symm⟩
        simp only [List.map_cons, List.nodup_cons] at hnd
        exact hnd.1 this
      have hnd' : (rest.map Interceptor.interceptorClass).Nodup := by
        simp only [List.map_cons, List.nodup_cons] at hnd
        exact hnd.2
      simp only [findInterceptorIndexNat, if_neg hne, ih k hnd' hget]
      rfl

theorem get?_of_findNat (l : List Interceptor) (c : String) (n : Nat)
    (hf : findInterceptorIndexNat l c = some n) :
    ∃ x, l.get? n = some x ∧ x.interceptorClass = c := by
  induction l generalizing n with
  | nil => simp [findInterceptorIndexNat] at hf
  | cons e rest ih =>
    by_cases he : e.interceptorClass = c
    · simp only [findInterceptorIndexNat, if_pos he] at hf
      injection hf with hn
      rw [← hn]
      exact ⟨e, rfl, he⟩
    · simp only [findInterceptorIndexNat, if_neg he] at hf
      cases hrec : findInterceptorIndexNat rest c with
      | none => rw [hrec] at hf; simp at hf
      | some k =>
        rw [hrec] at hf
        rw [show Option.map (fun x => x + 1) (some k) = some (k + 1) from rfl] at hf
        injection hf with hn
        rcases ih k hrec with ⟨x, hx, hxc⟩
        refine ⟨x, ?_, hxc⟩
        rw [← hn]
        exact hx

theorem findNat_lt_length (l : List Interceptor) (c : String) (n : Nat)
    (hf : findInterceptorIndexNat l c = some n) : n < l.length := by
  rcases get?_of_findNat l c n hf with ⟨x, hx, _⟩
  by_contra hlt
  push_neg at hlt
  rw [List.get?_eq_none.mpr hlt] at hx
  cases hx

end EvictionController

namespace EvictionController

/-! ### Lemmas about the eviction performer -/

theorem increment_pes (s : EvictionRequestStatus) (env : Env) :
    (IncrementFailedEvictionCounter s env).status.podEvictionStatus =
      some ⟨wrap32 (counterOf s + 1)⟩ := rfl

theorem counterOf_increment (s : EvictionRequestStatus) (env : Env) :
    counterOf (IncrementFailedEvictionCounter s env).status = wrap32 (counterOf s + 1) := by
  simp [counterOf, increment_pes]

theorem wrap32_eq_self (x : Int) (hlo : -2147483648 ≤ x) (hhi : x < 2147483648) :
    wrap32 x = x := by
  unfold wrap32
  omega

theorem perform_class (spec : EvictionRequestSpec) (s : EvictionRequestStatus) (env : Env) :
    (Perform spec s env).status.activeInterceptorClass = s.activeInterceptorClass := by
  cases href : spec.target.podRef with
  | none => simp [Perform, href, UpsertCondition, upsertPure_activeClass]
  | some ref =>
    cases hpod : env.podGet with
    | notFound => simp [Perform, href, hpod]
    | getError => simp [Perform, href, hpod]
    | found u =>
      by_cases hev : env.evictErr
      · simp [Perform, href, hpod, hev, IncrementFailedEvictionCounter,
              UpsertCondition, upsertPure_activeClass]
      · simp [Perform, href, hpod, hev, UpsertCondition, upsertPure_activeClass]

theorem perform_completed (spec : EvictionRequestSpec) (s : EvictionRequestStatus) (env : Env) :
    (Perform spec s env).status.activeInterceptorCompleted = s.activeInterceptorCompleted := by
  cases href : spec.target.podRef with
  | none => simp [Perform, href, UpsertCondition, upsertPure_completed]
  | some ref =>
    cases hpod : env.podGet with
    | notFound => simp [Perform, href, hpod]
    | getError => simp [Perform, href, hpod]
    | found u =>
      by_cases hev : env.evictErr
      · simp [Perform, href, hpod, hev, IncrementFailedEvictionCounter,
              UpsertCondition, upsertPure_completed]
      · simp [Perform, href, hpod, hev, UpsertCondition, upsertPure_completed]

theorem perform_selected (spec : EvictionRequestSpec) (s : EvictionRequestStatus) (env : Env) :
    (Perform spec s env).selected = none := by
  cases href : spec.target.podRef with
  | none => simp [Perform, href]
  | some ref =>
    cases hpod : env.podGet with
    | notFound => simp [Perform, href, hpod]
    | getError => simp [Perform, href, hpod]
    | found u =>
      by_cases hev : env.evictErr
      · simp [Perform, href, hpod, hev]
      · simp [Perform, href, hpod, hev]

theorem perform_performCalled (spec : EvictionRequestSpec) (s : EvictionRequestStatus)
    (env : Env) : (Perform spec s env).performCalled = true := by
  cases href : spec.target.podRef with
  | none => simp [Perform, href]
  | some ref =>
    cases hpod : env.podGet with
    | notFound => simp [Perform, href, hpod]
    | getError => simp [Perform, href, hpod]
    | found u =>
      by_cases hev : env.evictErr
      · simp [Perform, href, hpod, hev]
      · simp [Perform, href, hpod, hev]

theorem perform_nilBranch_of_some (spec : EvictionRequestSpec) (s : EvictionRequestStatus)
    (env : Env) (ref : LocalPodReference) (href : spec.target.podRef = some ref) :
    (Perform spec s env).nilBranchHit = false := by
  cases hpod : env.podGet with
  | notFound => simp [Perform, href, hpod]
  | getError => simp [Perform, href, hpod]
  | found u =>
    by_cases hev : env.evictErr
    · simp [Perform, href, hpod, hev]
    · simp [Perform, href, hpod, hev]

theorem counterOf_perform (spec : EvictionRequestSpec) (s : EvictionRequestStatus) (env : Env) :
    counterOf (Perform spec s env).status = counterOf s ∨
      counterOf (Perform spec s env).status = wrap32 (counterOf s + 1) := by
  cases href : spec.target.podRef with
  | none =>
    left
    simp [Perform, href, UpsertCondition, counterOf_upsertPure]
  | some ref =>
    cases hpod : env.podGet with
    | notFound => left; simp [Perform, href, hpod]
    | getError => left; simp [Perform, href, hpod]
    | found u =>
      by_cases hev : env.evictErr
      · right
        have hst : (Perform spec s env).status = (IncrementFailedEvictionCounter s env).status := by
          simp [Perform, href, hpod, hev]
        rw [hst, counterOf_increment]
      · left
        simp [Perform, href, hpod, hev, UpsertCondition, counterOf_upsertPure]

end EvictionController

namespace EvictionController

/-! ### Branch equations for `Handle` -/

theorem handle_state1 (spec : EvictionRequestSpec) (s : EvictionRequestStatus) (env : Env)
    (hc : s.activeInterceptorClass = none ∨ s.activeInterceptorClass = some "")
    (h : Interceptor) (rest : List Interceptor)
    (hsort : sortInterceptorsByPriority spec.interceptors = h :: rest) :
    Handle spec s env = .ok ⟨{ s with activeInterceptorClass := some h.interceptorClass },
      updateStatusErrOf env, [{ s with activeInterceptorClass := some h.interceptorClass }],
      false, false, false, some h.interceptorClass⟩ := by
  obtain ⟨cs, msg, acls, acomp, hb, eft, pol, pes⟩ := s
  rcases hc with hc | hc
  · simp only at hc
    subst hc
    simp [Handle, hsort, selectInitialInterceptor]
  · simp only at hc
    subst hc
    simp [Handle, hsort, selectInitialInterceptor]

theorem handle_state2_next (spec : EvictionRequestSpec) (s : EvictionRequestStatus) (env : Env)
    (c : String) (i : Nat) (nxt : Interceptor)
    (hc : s.activeInterceptorClass = some c) (hne : c ≠ "")
    (hcomp : s.activeInterceptorCompleted = true)
    (hfind : findInterceptorIndexNat (sortInterceptorsByPriority spec.interceptors) c = some i)
    (hlt : i + 1 < (sortInterceptorsByPriority spec.interceptors).length)
    (hget : (sortInterceptorsByPriority spec.interceptors).get? (i + 1) = some nxt) :
    Handle spec s env = .ok ⟨{ s with activeInterceptorClass := some nxt.interceptorClass },
      updateStatusErrOf env, [{ s with activeInterceptorClass := some nxt.interceptorClass }],
      false, false, false, some nxt.interceptorClass⟩ := by
  obtain ⟨cs, msg, acls, acomp, hb, eft, pol, pes⟩ := s
  simp only at hc hcomp
  subst hc
  subst hcomp
  simp only [Handle]
  rw [if_neg hne]
  simp only [if_true]
  unfold handleCompletedInterceptor
  simp only [findInterceptorIndex, hfind]
  rw [if_pos ⟨Int.ofNat_nonneg i, by exact_mod_cast hlt⟩]
  simp only [Int.toNat_ofNat]
  unfold selectNextInterceptor
  rw [hget]

theorem handle_state2_exhausted_absent (spec : EvictionRequestSpec)
    (s : EvictionRequestStatus) (env : Env) (c : String)
    (hc : s.activeInterceptorClass = some c) (hne : c ≠ "")
    (hcomp : s.activeInterceptorCompleted = true)
    (hfind : findInterceptorIndexNat (sortInterceptorsByPriority spec.interceptors) c = none) :
    Handle spec s env = .ok (Perform spec s env) := by
  obtain ⟨cs, msg, acls, acomp, hb, eft, pol, pes⟩ := s
  simp only at hc hcomp
  subst hc
  subst hcomp
  simp only [Handle]
  rw [if_neg hne]
  simp only [if_true]
  unfold handleCompletedInterceptor
  simp only [findInterceptorIndex, hfind]
  rw [if_neg]
  intro hcontra
  have := hcontra.1
  omega

theorem handle_state2_exhausted_last (spec : EvictionRequestSpec)
    (s : EvictionRequestStatus) (env : Env) (c : String) (i : Nat)
    (hc : s.activeInterceptorClass = some c) (hne : c ≠ "")
    (hcomp : s.activeInterceptorCompleted = true)
    (hfind : findInterceptorIndexNat (sortInterceptorsByPriority spec.interceptors) c = some i)
    (hge : ¬(i + 1 < (sortInterceptorsByPriority spec.interceptors).length)) :
    Handle spec s env = .ok (Perform spec s env) := by
  obtain ⟨cs, msg, acls, acomp, hb, eft, pol, pes⟩ := s
  simp only at hc hcomp
  subst hc
  subst hcomp
  simp only [Handle]
  rw [if_neg hne]
  simp only [if_true]
  unfold handleCompletedInterceptor
  simp only [findInterceptorIndex, hfind]
  rw [if_neg]
  intro hcontra
  have h2 := hcontra.2
  apply hge
  exact_mod_cast h2

theorem handle_state3_expired (spec : EvictionRequestSpec) (s : EvictionRequestStatus)
    (env : Env) (c : String) (d t : Int)
    (hc : s.activeInterceptorClass = some c) (hne : c ≠ "")
    (hcomp : s.activeInterceptorCompleted = false)
    (hd : spec.heartbeatDeadlineSeconds = some d) (ht : s.heartbeatTime = some t)
    (hexp : env.now - t > d) :
    Handle spec s env = .ok ⟨{ s with activeInterceptorCompleted := true },
      updateStatusErrOf env, [{ s with activeInterceptorCompleted := true }],
      false, false, false, none⟩ := by
  obtain ⟨cs, msg, acls, acomp, hb, eft, pol, pes⟩ := s
  simp only at hc hcomp ht
  subst hc
  subst hcomp
  subst ht
  simp only [Handle]
  rw [if_neg hne]
  simp only [Bool.false_eq_true, if_false]
  unfold checkInterceptorTimeout
  simp only [hd]
  rw [if_pos hexp]
  unfold markInterceptorAsCompleted
  rfl

theorem handle_state3_noop (spec : EvictionRequestSpec) (s : EvictionRequestStatus)
    (env : Env) (c : String)
    (hc : s.activeInterceptorClass = some c) (hne : c ≠ "")
    (hcomp : s.activeInterceptorCompleted = false)
    (hnoexp : ∀ d t, spec.heartbeatDeadlineSeconds = some d → s.heartbeatTime = some t →
      ¬(env.now - t > d)) :
    Handle spec s env = .ok ⟨s, none, [], false, false, false, none⟩ := by
  obtain ⟨cs, msg, acls, acomp, hb, eft, pol, pes⟩ := s
  simp only at hc hcomp hnoexp
  subst hc
  subst hcomp
  simp only [Handle]
  rw [if_neg hne]
  simp only [Bool.false_eq_true, if_false]
  unfold checkInterceptorTimeout
  cases hd : spec.heartbeatDeadlineSeconds with
  | none => rfl
  | some d =>
    cases hb with
    | none => rfl
    | some t =>
      dsimp only
      rw [if_neg (hnoexp d t hd rfl)]

end EvictionController

namespace EvictionController

/-- Inversion for `Handle`: every normal outcome is a selection persisting a
new active class, a timeout marking, a no-op, or a delegation to `Perform`. -/
theorem handle_cases_inv (spec : EvictionRequestSpec) (s : EvictionRequestStatus)
    (env : Env) (r : RResult) (h : Handle spec s env = .ok r) :
    (∃ cnew, r = ⟨{ s with activeInterceptorClass := some cnew }, updateStatusErrOf env,
        [{ s with activeInterceptorClass := some cnew }], false, false, false, some cnew⟩)
    ∨ r = ⟨{ s with activeInterceptorCompleted := true }, updateStatusErrOf env,
        [{ s with activeInterceptorCompleted := true }], false, false, false, none⟩
    ∨ r = ⟨s, none, [], false, false, false, none⟩
    ∨ (s.activeInterceptorCompleted = true ∧ r = Perform spec s env) := by
  cases hc : s.activeInterceptorClass with
  | none =>
    cases hsort : sortInterceptorsByPriority spec.interceptors with
    | nil =>
      simp [Handle, hc, hsort, selectInitialInterceptor] at h
    | cons hd2 tl =>
      rw [handle_state1 spec s env (Or.inl hc) hd2 tl hsort] at h
      injection h with h'
      subst h'
      exact Or.inl ⟨hd2.interceptorClass, rfl⟩
  | some c =>
    by_cases hce : c = ""
    · subst hce
      cases hsort : sortInterceptorsByPriority spec.interceptors with
      | nil =>
        simp [Handle, hc, hsort, selectInitialInterceptor] at h
      | cons hd2 tl =>
        rw [handle_state1 spec s env (Or.inr hc) hd2 tl hsort] at h
        injection h with h'
        subst h'
        exact Or.inl ⟨hd2.interceptorClass, rfl⟩
    · cases hcomp : s.activeInterceptorCompleted with
      | true =>
        cases hfind : findInterceptorIndexNat (sortInterceptorsByPriority spec.interceptors) c with
        | none =>
          rw [handle_state2_exhausted_absent spec s env c hc hce hcomp hfind] at h
          injection h with h'
          subst h'
          exact Or.inr (Or.inr (Or.inr ⟨rfl, rfl⟩))
        | some i =>
          by_cases hlt : i + 1 < (sortInterceptorsByPriority spec.interceptors).length
          · have hget : ∃ nxt,
                (sortInterceptorsByPriority spec.interceptors).get? (i + 1) = some nxt := by
              cases hg : (sortInterceptorsByPriority spec.interceptors).get? (i + 1) with
              | none =>
                rw [List.get?_eq_none] at hg
                omega
              | some nxt => exact ⟨nxt, rfl⟩
            obtain ⟨nxt, hget⟩ := hget
            rw [handle_state2_next spec s env c i nxt hc hce hcomp hfind hlt hget] at h
            injection h with h'
            subst h'
            rw [hcomp]
            exact Or.inl ⟨nxt.interceptorClass, rfl⟩
          · rw [handle_state2_exhausted_last spec s env c i hc hce hcomp hfind hlt] at h
            injection h with h'
            subst h'
            exact Or.inr (Or.inr (Or.inr ⟨rfl, rfl⟩))
      | false =>
        cases hd : spec.heartbeatDeadlineSeconds with
        | none =>
          rw [handle_state3_noop spec s env c hc hce hcomp
            (fun d t hd' ht' => by rw [hd] at hd'; cases hd')] at h
          injection h with h'
          subst h'
          exact Or.inr (Or.inr (Or.inl rfl))
        | some d =>
          cases ht : s.heartbeatTime with
          | none =>
            rw [handle_state3_noop spec s env c hc hce hcomp
              (fun d' t' hd' ht' => by rw [ht] at ht'; cases ht')] at h
            injection h with h'
            subst h'
            exact Or.inr (Or.inr (Or.inl rfl))
          | some t =>
            by_cases hexp : env.now - t > d
            · rw [handle_state3_expired spec s env c d t hc hce hcomp hd ht hexp] at h
              injection h with h'
              subst h'
              rw [hc, ht]
              exact Or.inr (Or.inl rfl)
            · rw [handle_state3_noop spec s env c hc hce hcomp
                (fun d' t' hd' ht' => by
                  rw [hd] at hd'
                  rw [ht] at ht'
                  injection hd' with e1
                  injection ht' with e2
                  rw [← e1, ← e2]
                  exact hexp)] at h
              injection h with h'
              subst h'
              exact Or.inr (Or.inr (Or.inl rfl))

/-- Lemma: `Handle` never panics when the interceptor list is non-empty (the
dispatcher only calls it under that guard). -/
theorem handle_total (spec : EvictionRequestSpec) (s : EvictionRequestStatus)
    (env : Env) (hne : spec.interceptors ≠ []) :
    ∃ r, Handle spec s env = .ok r := by
  have hsne : sortInterceptorsByPriority spec.interceptors ≠ [] :=
    sortInterceptors_ne_nil spec.interceptors hne
  cases hc : s.activeInterceptorClass with
  | none =>
    cases hsort : sortInterceptorsByPriority spec.interceptors with
    | nil => exact absurd hsort hsne
    | cons hd2 tl => exact ⟨_, handle_state1 spec s env (Or.inl hc) hd2 tl hsort⟩
  | some c =>
    by_cases hce : c = ""
    · subst hce
      cases hsort : sortInterceptorsByPriority spec.interceptors with
      | nil => exact absurd hsort hsne
      | cons hd2 tl => exact ⟨_, handle_state1 spec s env (Or.inr hc) hd2 tl hsort⟩
    · cases hcomp : s.activeInterceptorCompleted with
      | true =>
        cases hfind : findInterceptorIndexNat (sortInterceptorsByPriority spec.interceptors) c with
        | none => exact ⟨_, handle_state2_exhausted_absent spec s env c hc hce hcomp hfind⟩
        | some i =>
          by_cases hlt : i + 1 < (sortInterceptorsByPriority spec.interceptors).length
          · have hget : ∃ nxt,
                (sortInterceptorsByPriority spec.interceptors).get? (i + 1) = some nxt := by
              cases hg : (sortInterceptorsByPriority spec.interceptors).get? (i + 1) with
              | none =>
                rw [List.get?_eq_none] at hg
                omega
              | some nxt => exact ⟨nxt, rfl⟩
            obtain ⟨nxt, hget⟩ := hget
            exact ⟨_, handle_state2_next spec s env c i nxt hc hce hcomp hfind hlt hget⟩
          · exact ⟨_, handle_state2_exhausted_last spec s env c i hc hce hcomp hfind hlt⟩
      | false =>
        cases hd : spec.heartbeatDeadlineSeconds with
        | none =>
          exact ⟨_, handle_state3_noop spec s env c hc hce hcomp
            (fun d t hd' ht' => by rw [hd] at hd'; cases hd')⟩
        | some d =>
          cases ht : s.heartbeatTime with
          | none =>
            exact ⟨_, handle_state3_noop spec s env c hc hce hcomp
              (fun d' t' hd' ht' => by rw [ht] at ht'; cases ht')⟩
          | some t =>
            by_cases hexp : env.now - t > d
            · exact ⟨_, handle_state3_expired spec s env c d t hc hce hcomp hd ht hexp⟩
            · exact ⟨_, handle_state3_noop spec s env c hc hce hcomp
                (fun d' t' hd' ht' => by
                  rw [hd] at hd'
                  rw [ht] at ht'
                  injection hd' with e1
                  injection ht' with e2
                  rw [← e1, ← e2]
                  exact hexp)⟩

end EvictionController

namespace EvictionController

theorem handle_counter (spec : EvictionRequestSpec) (s : EvictionRequestStatus)
    (env : Env) (r : RResult) (h : Handle spec s env = .ok r) :
    counterOf r.status = counterOf s ∨ counterOf r.status = wrap32 (counterOf s + 1) := by
  rcases handle_cases_inv spec s env r h with ⟨c, rfl⟩ | rfl | rfl | ⟨_, rfl⟩
  · left; rfl
  · left; rfl
  · left; rfl
  · exact counterOf_perform spec s env

theorem handle_nilbranch (spec : EvictionRequestSpec) (s : EvictionRequestStatus)
    (env : Env) (r : RResult) (ref : LocalPodReference)
    (href : spec.target.podRef = some ref) (h : Handle spec s env = .ok r) :
    r.nilBranchHit = false := by
  rcases handle_cases_inv spec s env r h with ⟨c, rfl⟩ | rfl | rfl | ⟨_, rfl⟩
  · rfl
  · rfl
  · rfl
  · exact perform_nilBranch_of_some spec s env ref href

theorem reconcile_counter (spec : EvictionRequestSpec) (s : EvictionRequestStatus)
    (env : Env) (r : RResult) (h : ReconcileEvictionRequest spec s env = .ok r) :
    counterOf r.status = counterOf s ∨ counterOf r.status = wrap32 (counterOf s + 1) := by
  unfold ReconcileEvictionRequest at h
  cases href : spec.target.podRef with
  | none => rw [href] at h; cases h
  | some ref =>
    rw [href] at h
    cases hpod : env.podGet with
    | notFound =>
      rw [hpod] at h
      injection h with h'
      subst h'
      left; rfl
    | getError =>
      rw [hpod] at h
      injection h with h'
      subst h'
      left; rfl
    | found uid =>
      rw [hpod] at h
      dsimp only at h
      by_cases huid : uid ≠ ref.uid
      · rw [if_pos huid] at h
        injection h with h'
        subst h'
        left; rfl
      · rw [if_neg huid] at h
        by_cases hpol : s.evictionRequestCancellationPolicy = ""
        · rw [if_pos hpol] at h
          dsimp only at h
          cases henv : env.updateStatusErr with
          | true =>
            simp only [updateStatusErrOf, henv, if_true] at h
            injection h with h'
            subst h'
            left; rfl
          | false =>
            simp only [updateStatusErrOf, henv, Bool.false_eq_true, if_false] at h
            by_cases hint : 0 < spec.interceptors.length
            · rw [if_pos hint] at h
              cases hh : Handle spec { s with evictionRequestCancellationPolicy := Allow } env with
              | panicked => rw [hh] at h; cases h
              | ok r2 =>
                rw [hh] at h
                injection h with h'
                subst h'
                exact handle_counter spec
                  { s with evictionRequestCancellationPolicy := Allow } env r2 hh
            · rw [if_neg hint] at h
              injection h with h'
              subst h'
              exact counterOf_perform spec
                { s with evictionRequestCancellationPolicy := Allow } env
        · rw [if_neg hpol] at h
          dsimp only at h
          by_cases hint : 0 < spec.interceptors.length
          · rw [if_pos hint] at h
            cases hh : Handle spec s env with
            | panicked => rw [hh] at h; cases h
            | ok r2 =>
              rw [hh] at h
              injection h with h'
              subst h'
              exact handle_counter spec s env r2 hh
          · rw [if_neg hint] at h
            injection h with h'
            subst h'
            exact counterOf_perform spec s env

end EvictionController

namespace EvictionController

theorem reconcile_nilbranch (spec : EvictionRequestSpec) (s : EvictionRequestStatus)
    (env : Env) (r : RResult) (h : ReconcileEvictionRequest spec s env = .ok r) :
    r.nilBranchHit = false := by
  unfold ReconcileEvictionRequest at h
  cases href : spec.target.podRef with
  | none => rw [href] at h; cases h
  | some ref =>
    rw [href] at h
    cases hpod : env.podGet with
    | notFound =>
      rw [hpod] at h
      injection h with h'
      subst h'
      rfl
    | getError =>
      rw [hpod] at h
      injection h with h'
      subst h'
      rfl
    | found uid =>
      rw [hpod] at h
      dsimp only at h
      by_cases huid : uid ≠ ref.uid
      · rw [if_pos huid] at h
        injection h with h'
        subst h'
        rfl
      · rw [if_neg huid] at h
        by_cases hpol : s.evictionRequestCancellationPolicy = ""
        · rw [if_pos hpol] at h
          dsimp only at h
          cases henv : env.updateStatusErr with
          | true =>
            simp only [updateStatusErrOf, henv, if_true] at h
            injection h with h'
            subst h'
            rfl
          | false =>
            simp only [updateStatusErrOf, henv, Bool.false_eq_true, if_false] at h
            by_cases hint : 0 < spec.interceptors.length
            · rw [if_pos hint] at h
              cases hh : Handle spec { s with evictionRequestCancellationPolicy := Allow } env with
              | panicked => rw [hh] at h; cases h
              | ok r2 =>
                rw [hh] at h
                injection h with h'
                subst h'
                exact handle_nilbranch spec
                  { s with evictionRequestCancellationPolicy := Allow } env r2 ref href hh
            · rw [if_neg hint] at h
              injection h with h'
              subst h'
              exact perform_nilBranch_of_some spec
                { s with evictionRequestCancellationPolicy := Allow } env ref href
        · rw [if_neg hpol] at h
          dsimp only at h
          by_cases hint : 0 < spec.interceptors.length
          · rw [if_pos hint] at h
            cases hh : Handle spec s env with
            | panicked => rw [hh] at h; cases h
            | ok r2 =>
              rw [hh] at h
              injection h with h'
              subst h'
              exact handle_nilbranch spec s env r2 ref href hh
          · rw [if_neg hint] at h
            injection h with h'
            subst h'
            exact perform_nilBranch_of_some spec s env ref href

theorem reconcile_total (spec : EvictionRequestSpec) (s : EvictionRequestStatus)
    (env : Env) (ref : LocalPodReference) (href : spec.target.podRef = some ref) :
    ∃ r, ReconcileEvictionRequest spec s env = .ok r := by
  unfold ReconcileEvictionRequest
  rw [href]
  cases hpod : env.podGet with
  | notFound => exact ⟨_, rfl⟩
  | getError => exact ⟨_, rfl⟩
  | found uid =>
    dsimp only
    by_cases huid : uid ≠ ref.uid
    · rw [if_pos huid]
      exact ⟨_, rfl⟩
    · rw [if_neg huid]
      by_cases hpol : s.evictionRequestCancellationPolicy = ""
      · rw [if_pos hpol]
        dsimp only
        cases henv : env.updateStatusErr with
        | true =>
          simp only [updateStatusErrOf, henv, if_true]
          exact ⟨_, rfl⟩
        | false =>
          simp only [updateStatusErrOf, henv, Bool.false_eq_true, if_false]
          by_cases hint : 0 < spec.interceptors.length
          · rw [if_pos hint]
            have hne : spec.interceptors ≠ [] := by
              intro hnil
              rw [hnil] at hint
              simp at hint
            obtain ⟨r2, hh⟩ :=
              handle_total spec { s with evictionRequestCancellationPolicy := Allow } env hne
            rw [hh]
            exact ⟨_, rfl⟩
          · rw [if_neg hint]
            exact ⟨_, rfl⟩
      · rw [if_neg hpol]
        dsimp only
        by_cases hint : 0 < spec.interceptors.length
        · rw [if_pos hint]
          have hne : spec.interceptors ≠ [] := by
            intro hnil
            rw [hnil] at hint
            simp at hint
          obtain ⟨r2, hh⟩ := handle_total spec s env hne
          rw [hh]
          exact ⟨_, rfl⟩
        · rw [if_neg hint]
          exact ⟨_, rfl⟩

theorem reconcile_panics_of_none (spec : EvictionRequestSpec) (s : EvictionRequestStatus)
    (env : Env) (href : spec.target.podRef = none) :
    ReconcileEvictionRequest spec s env = .panicked := by
  unfold ReconcileEvictionRequest
  rw [href]

end EvictionController

namespace EvictionController

theorem handle_policy_preserved (spec : EvictionRequestSpec) (s : EvictionRequestStatus)
    (env : Env) (r : RResult) (hcomp : s.activeInterceptorCompleted = false)
    (h : Handle spec s env = .ok r) :
    r.status.evictionRequestCancellationPolicy = s.evictionRequestCancellationPolicy := by
  rcases handle_cases_inv spec s env r h with ⟨c, rfl⟩ | rfl | rfl | ⟨hcomp2, rfl⟩
  · rfl
  · rfl
  · rfl
  · rw [hcomp] at hcomp2; cases hcomp2

/-- Under a pending (not completed) state with an unexpired heartbeat, a
second `Handle` invocation on the first invocation's resulting status leaves
the status unchanged. -/
theorem handle_idem_aux (spec : EvictionRequestSpec) (s : EvictionRequestStatus)
    (env : Env) (r2 : RResult)
    (hcomp : s.activeInterceptorCompleted = false)
    (hnoexp : ∀ d t, spec.heartbeatDeadlineSeconds = some d → s.heartbeatTime = some t →
      ¬(env.now - t > d))
    (hh : Handle spec s env = .ok r2) :
    ∃ r3, Handle spec r2.status env = .ok r3 ∧ r3.status = r2.status := by
  cases hc : s.activeInterceptorClass with
  | none =>
    cases hsort : sortInterceptorsByPriority spec.interceptors with
    | nil => simp [Handle, hc, hsort, selectInitialInterceptor] at hh
    | cons hd2 tl =>
      rw [handle_state1 spec s env (Or.inl hc) hd2 tl hsort] at hh
      injection hh with hh'
      subst hh'
      by_cases hhd : hd2.interceptorClass = ""
      · refine ⟨_, handle_state1 spec _ env (Or.inr ?_) hd2 tl hsort, rfl⟩
        simp [hhd]
      · exact ⟨_, handle_state3_noop spec _ env hd2.interceptorClass rfl hhd hcomp
          (fun d t hd' ht' => hnoexp d t hd' ht'), rfl⟩
  | some c =>
    by_cases hce : c = ""
    · subst hce
      cases hsort : sortInterceptorsByPriority spec.interceptors with
      | nil => simp [Handle, hc, hsort, selectInitialInterceptor] at hh
      | cons hd2 tl =>
        rw [handle_state1 spec s env (Or.inr hc) hd2 tl hsort] at hh
        injection hh with hh'
        subst hh'
        by_cases hhd : hd2.interceptorClass = ""
        · refine ⟨_, handle_state1 spec _ env (Or.inr ?_) hd2 tl hsort, rfl⟩
          simp [hhd]
        · exact ⟨_, handle_state3_noop spec _ env hd2.interceptorClass rfl hhd hcomp
            (fun d t hd' ht' => hnoexp d t hd' ht'), rfl⟩
    · rw [handle_state3_noop spec s env c hc hce hcomp hnoexp] at hh
      injection hh with hh'
      subst hh'
      exact ⟨_, handle_state3_noop spec s env c hc hce hcomp hnoexp, rfl⟩

/-! ### Equations for `reconcileStatus` -/

theorem reconcileStatus_notFound (spec : EvictionRequestSpec) (s : EvictionRequestStatus)
    (env : Env) (ref : LocalPodReference) (href : spec.target.podRef = some ref)
    (hpod : env.podGet = .notFound) : reconcileStatus spec s env = some s := by
  simp [reconcileStatus, ReconcileEvictionRequest, href, hpod]

theorem reconcileStatus_getError (spec : EvictionRequestSpec) (s : EvictionRequestStatus)
    (env : Env) (ref : LocalPodReference) (href : spec.target.podRef = some ref)
    (hpod : env.podGet = .getError) : reconcileStatus spec s env = some s := by
  simp [reconcileStatus, ReconcileEvictionRequest, href, hpod]

theorem reconcileStatus_uidMismatch (spec : EvictionRequestSpec) (s : EvictionRequestStatus)
    (env : Env) (ref : LocalPodReference) (uid : String)
    (href : spec.target.podRef = some ref) (hpod : env.podGet = .found uid)
    (huid : uid ≠ ref.uid) : reconcileStatus spec s env = some s := by
  simp [reconcileStatus, ReconcileEvictionRequest, href, hpod, huid]

theorem reconcileStatus_handle_nopol (spec : EvictionRequestSpec) (s : EvictionRequestStatus)
    (env : Env) (ref : LocalPodReference) (uid : String) (r2 : RResult)
    (href : spec.target.podRef = some ref) (hpod : env.podGet = .found uid)
    (huid : uid = ref.uid) (hpol : s.evictionRequestCancellationPolicy ≠ "")
    (hint : spec.interceptors ≠ []) (hh : Handle spec s env = .ok r2) :
    reconcileStatus spec s env = some r2.status := by
  unfold reconcileStatus ReconcileEvictionRequest
  rw [href, hpod]
  dsimp only
  rw [if_neg (by simp [huid])]
  rw [if_neg hpol]
  dsimp only
  rw [if_pos (List.length_pos.mpr hint)]
  rw [hh]

theorem reconcileStatus_perform_nopol (spec : EvictionRequestSpec) (s : EvictionRequestStatus)
    (env : Env) (ref : LocalPodReference) (uid : String)
    (href : spec.target.podRef = some ref) (hpod : env.podGet = .found uid)
    (huid : uid = ref.uid) (hpol : s.evictionRequestCancellationPolicy ≠ "")
    (hint : spec.interceptors = []) :
    reconcileStatus spec s env = some (Perform spec s env).status := by
  unfold reconcileStatus ReconcileEvictionRequest
  rw [href, hpod]
  dsimp only
  rw [if_neg (by simp [huid])]
  rw [if_neg hpol]
  dsimp only
  rw [if_neg (by simp [hint])]

theorem reconcileStatus_handle_pol (spec : EvictionRequestSpec) (s : EvictionRequestStatus)
    (env : Env) (ref : LocalPodReference) (uid : String) (r2 : RResult)
    (href : spec.target.podRef = some ref) (hpod : env.podGet = .found uid)
    (huid : uid = ref.uid) (hpol : s.evictionRequestCancellationPolicy = "")
    (hupd : env.updateStatusErr = false)
    (hint : spec.interceptors ≠ [])
    (hh : Handle spec { s with evictionRequestCancellationPolicy := Allow } env = .ok r2) :
    reconcileStatus spec s env = some r2.status := by
  unfold reconcileStatus ReconcileEvictionRequest
  rw [href, hpod]
  dsimp only
  rw [if_neg (by simp [huid])]
  rw [if_pos hpol]
  dsimp only
  simp only [updateStatusErrOf, hupd, Bool.false_eq_true, if_false]
  rw [if_pos (List.length_pos.mpr hint)]
  rw [hh]

theorem reconcileStatus_perform_pol (spec : EvictionRequestSpec) (s : EvictionRequestStatus)
    (env : Env) (ref : LocalPodReference) (uid : String)
    (href : spec.target.podRef = some ref) (hpod : env.podGet = .found uid)
    (huid : uid = ref.uid) (hpol : s.evictionRequestCancellationPolicy = "")
    (hupd : env.updateStatusErr = false)
    (hint : spec.interceptors = []) :
    reconcileStatus spec s env =
      some (Perform spec { s with evictionRequestCancellationPolicy := Allow } env).status := by
  unfold reconcileStatus ReconcileEvictionRequest
  rw [href, hpod]
  dsimp only
  rw [if_neg (by simp [huid])]
  rw [if_pos hpol]
  dsimp only
  simp only [updateStatusErrOf, hupd, Bool.false_eq_true, if_false]
  rw [if_neg (by simp [hint])]

end EvictionController

namespace EvictionController

theorem perform_success_status (spec : EvictionRequestSpec) (s : EvictionRequestStatus)
    (env : Env) (ref : LocalPodReference) (u : String)
    (href : spec.target.podRef = some ref) (hpod : env.podGet = .found u)
    (hev : env.evictErr = false) :
    Perform spec s env =
      ⟨upsertConditionPure s ConditionTypeEvicted .cTrue ReasonEvictionSucceeded
          "Pod evicted successfully" env.now, none,
        [upsertConditionPure s ConditionTypeEvicted .cTrue ReasonEvictionSucceeded
          "Pod evicted successfully" env.now],
        true, true, false, none⟩ := by
  simp [Perform, href, hpod, hev, UpsertCondition, updateStatusErrOf]

theorem perform_fail_status (spec : EvictionRequestSpec) (s : EvictionRequestStatus)
    (env : Env) (ref : LocalPodReference) (u : String)
    (href : spec.target.podRef = some ref) (hpod : env.podGet = .found u)
    (hev : env.evictErr = true) :
    Perform spec s env = ⟨(IncrementFailedEvictionCounter s env).status, some .evictionAPIError,
      (IncrementFailedEvictionCounter s env).persists, true, true, false, none⟩ := by
  simp [Perform, href, hpod, hev]

end EvictionController

namespace EvictionController

/-- C2 amended: idempotence of the dispatcher holds when the target is resolvable, no
completed hand-off pending (`ActiveInterceptorCompleted == false`), an
unexpired heartbeat, a succeeding eviction call, and succeeding status
writes, a second invocation reproduces the first invocation's status. -/
theorem dispatcher_idempotent_amended (spec : EvictionRequestSpec)
    (s : EvictionRequestStatus) (env : Env) (ref : LocalPodReference)
    (s1 : EvictionRequestStatus)
    (href : spec.target.podRef = some ref)
    (hcomp : s.activeInterceptorCompleted = false)
    (hnoexp : ∀ d t, spec.heartbeatDeadlineSeconds = some d → s.heartbeatTime = some t →
      ¬(env.now - t > d))
    (hev : env.evictErr = false)
    (hupd : env.updateStatusErr = false)
    (h1 : reconcileStatus spec s env = some s1) :
    reconcileStatus spec s1 env = some s1 := by
  cases hpod : env.podGet with
  | notFound =>
    rw [reconcileStatus_notFound spec s env ref href hpod] at h1
    injection h1 with h1'
    subst h1'
    exact reconcileStatus_notFound spec s env ref href hpod
  | getError =>
    rw [reconcileStatus_getError spec s env ref href hpod] at h1
    injection h1 with h1'
    subst h1'
    exact reconcileStatus_getError spec s env ref href hpod
  | found uid =>
    by_cases huid : uid ≠ ref.uid
    · rw [reconcileStatus_uidMismatch spec s env ref uid href hpod huid] at h1
      injection h1 with h1'
      subst h1'
      exact reconcileStatus_uidMismatch spec s env ref uid href hpod huid
    · have huid' : uid = ref.uid := not_not.mp huid
      by_cases hpol : s.evictionRequestCancellationPolicy = ""
      · by_cases hint : spec.interceptors = []
        · rw [reconcileStatus_perform_pol spec s env ref uid href hpod huid' hpol hupd hint] at h1
          rw [perform_success_status spec { s with evictionRequestCancellationPolicy := Allow }
            env ref uid href hpod hev] at h1
          dsimp only at h1
          injection h1 with h1'
          subst h1'
          have hsp : ({ s with evictionRequestCancellationPolicy := Allow } :
              EvictionRequestStatus).evictionRequestCancellationPolicy ≠ "" := by
            dsimp only
            decide
          have hpol1 : (upsertConditionPure { s with evictionRequestCancellationPolicy := Allow }
              ConditionTypeEvicted .cTrue ReasonEvictionSucceeded "Pod evicted successfully"
              env.now).evictionRequestCancellationPolicy ≠ "" := by
            rw [upsertPure_policy_ne_empty _ _ _ _ _ _ hsp]
            exact hsp
          rw [reconcileStatus_perform_nopol spec _ env ref uid href hpod huid' hpol1 hint]
          rw [perform_success_status spec _ env ref uid href hpod hev]
          dsimp only
          rw [upsertPure_idem]
        · obtain ⟨r2, hh⟩ :=
            handle_total spec { s with evictionRequestCancellationPolicy := Allow } env hint
          rw [reconcileStatus_handle_pol spec s env ref uid r2 href hpod huid' hpol hupd hint hh] at h1
          injection h1 with h1'
          subst h1'
          have hcomp' : ({ s with evictionRequestCancellationPolicy := Allow } :
              EvictionRequestStatus).activeInterceptorCompleted = false := hcomp
          obtain ⟨r3, hh3, hst3⟩ := handle_idem_aux spec
            { s with evictionRequestCancellationPolicy := Allow } env r2 hcomp'
            (fun d t hd' ht' => hnoexp d t hd' ht') hh
          have hpol2 : r2.status.evictionRequestCancellationPolicy ≠ "" := by
            rw [handle_policy_preserved spec _ env r2 hcomp' hh]
            dsimp only
            decide
          rw [reconcileStatus_handle_nopol spec r2.status env ref uid r3 href hpod huid'
            hpol2 hint hh3]
          rw [hst3]
      · by_cases hint : spec.interceptors = []
        · rw [reconcileStatus_perform_nopol spec s env ref uid href hpod huid' hpol hint] at h1
          rw [perform_success_status spec s env ref uid href hpod hev] at h1
          dsimp only at h1
          injection h1 with h1'
          subst h1'
          have hpol1 : (upsertConditionPure s ConditionTypeEvicted .cTrue
              ReasonEvictionSucceeded "Pod evicted successfully"
              env.now).evictionRequestCancellationPolicy ≠ "" := by
            rw [upsertPure_policy_ne_empty _ _ _ _ _ _ hpol]
            exact hpol
          rw [reconcileStatus_perform_nopol spec _ env ref uid href hpod huid' hpol1 hint]
          rw [perform_success_status spec _ env ref uid href hpod hev]
          dsimp only
          rw [upsertPure_idem]
        · obtain ⟨r2, hh⟩ := handle_total spec s env hint
          rw [reconcileStatus_handle_nopol spec s env ref uid r2 href hpod huid' hpol hint hh] at h1
          injection h1 with h1'
          subst h1'
          obtain ⟨r3, hh3, hst3⟩ := handle_idem_aux spec s env r2 hcomp hnoexp hh
          have hpol2 : r2.status.evictionRequestCancellationPolicy ≠ "" := by
            rw [handle_policy_preserved spec s env r2 hcomp hh]
            exact hpol
          rw [reconcileStatus_handle_nopol spec r2.status env ref uid r3 href hpod huid'
            hpol2 hint hh3]
          rw [hst3]

end EvictionController

namespace EvictionController

/-! ## Claim theorems -/

/-- C1: evaluating the interceptor handler at Scenario B's input (interceptors
`{a:10, b:20}`, active class `b`, completed) shows `selectNextInterceptor`
advancing the active class to `a` while leaving `ActiveInterceptorCompleted`
set to `true`: the claimed reset to `false` does not happen in the code. -/
theorem selectNext_missing_completed_reset :
    (handleResult specAB statusActiveB envOK).map
      (fun r => (r.status.activeInterceptorClass, r.status.activeInterceptorCompleted))
      = some (some "a", true) := by decide

/-- C2 counterexample: invoking the dispatcher twice from Scenario B's state
with no external change does not equal invoking it once — the second call
advances the unreset state machine further. -/
theorem dispatcher_not_idempotent_counterexample :
    (reconcileStatus specAB statusActiveB envOK).bind
      (fun s1 => reconcileStatus specAB s1 envOK)
      ≠ reconcileStatus specAB statusActiveB envOK := by decide

/-- C2 amended witness: a fresh request that just selected its interceptor is
a fixed point of a further dispatcher invocation. -/
theorem dispatcher_idempotent_amended_witness :
    reconcileStatus specAB ⟨[], "", some "b", false, none, none, "Allow", none⟩ envOK =
      some ⟨[], "", some "b", false, none, none, "Allow", none⟩ :=
  dispatcher_idempotent_amended specAB statusEmpty envOK ⟨"p", "u"⟩
    ⟨[], "", some "b", false, none, none, "Allow", none⟩ rfl rfl
    (fun d t _ ht => by cases ht) rfl rfl (by decide)

/-- C3: with an active pending interceptor, a set deadline and heartbeat, an
exceeded deadline makes one invocation set `ActiveInterceptorCompleted` and
persist; an unexceeded deadline leaves the status unchanged with no error. -/
theorem heartbeat_deadline_property (spec : EvictionRequestSpec)
    (s : EvictionRequestStatus) (env : Env) (c : String) (d t : Int)
    (hc : s.activeInterceptorClass = some c) (hne : c ≠ "")
    (hcomp : s.activeInterceptorCompleted = false)
    (hd : spec.heartbeatDeadlineSeconds = some d) (ht : s.heartbeatTime = some t) :
    (env.now - t > d →
      Handle spec s env = .ok ⟨{ s with activeInterceptorCompleted := true },
        updateStatusErrOf env, [{ s with activeInterceptorCompleted := true }],
        false, false, false, none⟩)
  ∧ (¬(env.now - t > d) →
      Handle spec s env = .ok ⟨s, none, [], false, false, false, none⟩) := by
  constructor
  · intro hexp
    exact handle_state3_expired spec s env c d t hc hne hcomp hd ht hexp
  · intro hnexp
    refine handle_state3_noop spec s env c hc hne hcomp ?_
    intro d' t' hd' ht'
    rw [hd] at hd'
    rw [ht] at ht'
    injection hd' with e1
    injection ht' with e2
    rw [← e1, ← e2]
    exact hnexp

/-- C3 witness: at time 5000 with heartbeat 100 and deadline 1800, the active
interceptor is marked completed and the new status is persisted. -/
theorem heartbeat_deadline_property_witness :
    Handle specAB statusPendingB envLate =
      .ok ⟨⟨[], "", some "b", true, some 100, none, "Allow", none⟩, none,
        [⟨[], "", some "b", true, some 100, none, "Allow", none⟩],
        false, false, false, none⟩ :=
  (heartbeat_deadline_property specAB statusPendingB envLate "b" 1800 100
    rfl (by decide) rfl rfl rfl).1 (by decide)

/-- C4: when the active class is the last entry of the priority-descending
order and is completed, one invocation delegates to the terminal eviction
performer, selects no interceptor, leaves the active class and completed
flag unchanged (so no later invocation selects one either), and on a
successful eviction sets the `Evicted` condition to true. -/
theorem exhaustion_terminal_eviction (spec : EvictionRequestSpec)
    (s : EvictionRequestStatus) (env : Env) (c : String)
    (hc : s.activeInterceptorClass = some c) (hne : c ≠ "")
    (hcomp : s.activeInterceptorCompleted = true)
    (hlast : findInterceptorIndex (sortInterceptorsByPriority spec.interceptors) c =
      ((sortInterceptorsByPriority spec.interceptors).length : Int) - 1) :
    Handle spec s env = .ok (Perform spec s env)
  ∧ (Perform spec s env).performCalled = true
  ∧ (Perform spec s env).selected = none
  ∧ (Perform spec s env).status.activeInterceptorClass = some c
  ∧ (Perform spec s env).status.activeInterceptorCompleted = true
  ∧ (∀ ref u, spec.target.podRef = some ref → env.podGet = .found u →
      env.evictErr = false →
      (getCondition (Perform spec s env).status ConditionTypeEvicted).map Condition.status =
        some .cTrue) := by
  have hH : Handle spec s env = .ok (Perform spec s env) := by
    cases hfind : findInterceptorIndexNat (sortInterceptorsByPriority spec.interceptors) c with
    | none => exact handle_state2_exhausted_absent spec s env c hc hne hcomp hfind
    | some i =>
      refine handle_state2_exhausted_last spec s env c i hc hne hcomp hfind ?_
      have hlen := findNat_lt_length _ _ _ hfind
      simp only [findInterceptorIndex, hfind] at hlast
      omega
  refine ⟨hH, perform_performCalled spec s env, perform_selected spec s env, ?_, ?_, ?_⟩
  · rw [perform_class, hc]
  · rw [perform_completed, hcomp]
  · intro ref u href hpod hev
    rw [perform_success_status spec s env ref u href hpod hev]
    dsimp only
    rw [getCondition_upsertPure]
    rfl

/-- C4 witness: with interceptors `{a:10, b:20}`, active class `a` (last in
sorted order) completed, the invocation performs terminal eviction and the
`Evicted` condition becomes true. -/
theorem exhaustion_terminal_eviction_witness :
    Handle specAB statusLastA envOK = .ok (Perform specAB statusLastA envOK)
  ∧ (Perform specAB statusLastA envOK).performCalled = true
  ∧ (Perform specAB statusLastA envOK).selected = none
  ∧ (Perform specAB statusLastA envOK).status.activeInterceptorClass = some "a"
  ∧ (Perform specAB statusLastA envOK).status.activeInterceptorCompleted = true
  ∧ (∀ ref u, specAB.target.podRef = some ref → envOK.podGet = .found u →
      envOK.evictErr = false →
      (getCondition (Perform specAB statusLastA envOK).status ConditionTypeEvicted).map
        Condition.status = some .cTrue) :=
  exhaustion_terminal_eviction specAB statusLastA envOK "a" rfl (by decide) rfl (by decide)

end EvictionController

namespace EvictionController

/-- C5: with a non-empty interceptor list and no active class selected, one
invocation selects the head of the priority-descending order — an
interceptor of maximal priority — and persists it; and whenever a hand-off
selects a next class from a completed state, the new class sits exactly one
position later in the sorted order, so positions strictly advance and no
interceptor is ever selected twice. -/
theorem interceptor_selection_order (spec : EvictionRequestSpec)
    (s : EvictionRequestStatus) (env : Env)
    (hnd : (spec.interceptors.map Interceptor.interceptorClass).Nodup) :
    (spec.interceptors ≠ [] →
      (s.activeInterceptorClass = none ∨ s.activeInterceptorClass = some "") →
      ∃ h rest, sortInterceptorsByPriority spec.interceptors = h :: rest ∧
        Handle spec s env = .ok ⟨{ s with activeInterceptorClass := some h.interceptorClass },
          updateStatusErrOf env,
          [{ s with activeInterceptorClass := some h.interceptorClass }],
          false, false, false, some h.interceptorClass⟩ ∧
        (∀ i ∈ spec.interceptors, i.priority ≤ h.priority))
  ∧ (∀ c c' r, s.activeInterceptorClass = some c → c ≠ "" →
      s.activeInterceptorCompleted = true →
      Handle spec s env = .ok r → r.selected = some c' →
      ∃ i, findInterceptorIndexNat (sortInterceptorsByPriority spec.interceptors) c = some i ∧
        findInterceptorIndexNat (sortInterceptorsByPriority spec.interceptors) c' =
          some (i + 1)) := by
  constructor
  · intro hne hcls
    cases hsort : sortInterceptorsByPriority spec.interceptors with
    | nil => exact absurd hsort (sortInterceptors_ne_nil spec.interceptors hne)
    | cons hd2 tl =>
      exact ⟨hd2, tl, rfl, handle_state1 spec s env hcls hd2 tl hsort,
        sortInterceptors_head_max spec.interceptors hd2 tl hsort⟩
  · intro c c' r hc hne hcomp hh hsel
    cases hfind : findInterceptorIndexNat (sortInterceptorsByPriority spec.interceptors) c with
    | none =>
      rw [handle_state2_exhausted_absent spec s env c hc hne hcomp hfind] at hh
      injection hh with hh'
      subst hh'
      rw [perform_selected] at hsel
      cases hsel
    | some i =>
      by_cases hlt : i + 1 < (sortInterceptorsByPriority spec.interceptors).length
      · have hget : ∃ nxt,
            (sortInterceptorsByPriority spec.interceptors).get? (i + 1) = some nxt := by
          cases hg : (sortInterceptorsByPriority spec.interceptors).get? (i + 1) with
          | none =>
            rw [List.get?_eq_none] at hg
            omega
          | some nxt => exact ⟨nxt, rfl⟩
        obtain ⟨nxt, hget⟩ := hget
        rw [handle_state2_next spec s env c i nxt hc hne hcomp hfind hlt hget] at hh
        injection hh with hh'
        subst hh'
        dsimp only at hsel
        injection hsel with he
        refine ⟨i, rfl, ?_⟩
        rw [← he]
        exact findNat_of_get? _ (i + 1) nxt
          (sortInterceptors_nodup_classes spec.interceptors hnd) hget
      · rw [handle_state2_exhausted_last spec s env c i hc hne hcomp hfind hlt] at hh
        injection hh with hh'
        subst hh'
        rw [perform_selected] at hsel
        cases hsel

/-- C5 witness (Scenario A): with interceptors `{a:10, b:20}` and no active
class, the invocation selects `b`, the maximal-priority interceptor. -/
theorem interceptor_selection_order_witness :
    ∃ h rest, sortInterceptorsByPriority specAB.interceptors = h :: rest ∧
      Handle specAB statusEmpty envOK =
        .ok ⟨{ statusEmpty with activeInterceptorClass := some h.interceptorClass },
          updateStatusErrOf envOK,
          [{ statusEmpty with activeInterceptorClass := some h.interceptorClass }],
          false, false, false, some h.interceptorClass⟩ ∧
      (∀ i ∈ specAB.interceptors, i.priority ≤ h.priority) :=
  (interceptor_selection_order specAB statusEmpty envOK (by decide)).1
    (by decide) (Or.inl rfl)

/-- C6 counterexample: with the failed-eviction counter at the `int32`
maximum 2147483647, one more policy-blocked eviction wraps it to
-2147483648 — not an increment by exactly one. -/
theorem failed_eviction_wraps_at_max :
    counterOf (Perform specNoInt statusMaxCounter envEvictFail).status = -2147483648
  ∧ counterOf (Perform specNoInt statusMaxCounter envEvictFail).status ≠
      counterOf statusMaxCounter + 1
  ∧ (Perform specNoInt statusMaxCounter envEvictFail).error = some .evictionAPIError := by
  decide

/-- C6 amended: when the eviction API call fails and the counter is an
in-range `int32` value below the maximum, the performer increments
`FailedAPIEvictionCounter` by exactly one (at the maximum the `int32`
increment wraps instead), sets the `Evicted` condition to false with reason
`EvictionFailed`, and returns an error. -/
theorem failed_eviction_bookkeeping_amended (spec : EvictionRequestSpec)
    (s : EvictionRequestStatus) (env : Env) (ref : LocalPodReference) (u : String)
    (href : spec.target.podRef = some ref) (hpod : env.podGet = .found u)
    (hev : env.evictErr = true)
    (hlo : -2147483648 ≤ counterOf s) (hhi : counterOf s < 2147483647) :
    counterOf (Perform spec s env).status = counterOf s + 1
  ∧ (getCondition (Perform spec s env).status ConditionTypeEvicted).map
      (fun c => (c.status, c.reason)) = some (.cFalse, ReasonEvictionFailed)
  ∧ (Perform spec s env).error = some .evictionAPIError := by
  have hP := perform_fail_status spec s env ref u href hpod hev
  have hst : (IncrementFailedEvictionCounter s env).status =
      upsertConditionPure
        { s with
          podEvictionStatus := some ⟨wrap32 (counterOf s + 1)⟩,
          evictionRequestCancellationPolicy :=
            if s.evictionRequestCancellationPolicy = "" then Allow
            else s.evictionRequestCancellationPolicy }
        ConditionTypeEvicted .cFalse ReasonEvictionFailed "Failed to evict pod" env.now := rfl
  refine ⟨?_, ?_, ?_⟩
  · rw [hP]
    have h1 : counterOf (IncrementFailedEvictionCounter s env).status =
        wrap32 (counterOf s + 1) := counterOf_increment s env
    rw [show counterOf
        (⟨(IncrementFailedEvictionCounter s env).status, some .evictionAPIError,
          (IncrementFailedEvictionCounter s env).persists, true, true, false,
          none⟩ : RResult).status =
        counterOf (IncrementFailedEvictionCounter s env).status from rfl, h1]
    exact wrap32_eq_self (counterOf s + 1) (by omega) (by omega)
  · rw [hP]
    dsimp only
    rw [hst, getCondition_upsertPure]
    rfl
  · rw [hP]

/-- C6 amended witness: on a request with a fresh status (counter 0), a
policy-blocked eviction sets the counter to 1, the `Evicted` condition to
false with reason `EvictionFailed`, and returns the eviction error. -/
theorem failed_eviction_bookkeeping_amended_witness :
    counterOf (Perform specNoInt statusEmpty envEvictFail).status = counterOf statusEmpty + 1
  ∧ (getCondition (Perform specNoInt statusEmpty envEvictFail).status ConditionTypeEvicted).map
      (fun c => (c.status, c.reason)) = some (.cFalse, ReasonEvictionFailed)
  ∧ (Perform specNoInt statusEmpty envEvictFail).error = some .evictionAPIError :=
  failed_eviction_bookkeeping_amended specNoInt statusEmpty envEvictFail ⟨"p", "u"⟩ "u"
    rfl rfl rfl (by decide) (by decide)

end EvictionController

namespace EvictionController

/-- C7 counterexample: at the `int32` maximum, the only mutation of the
counter — the increment in `IncrementFailedEvictionCounter` — wraps to
-2147483648, a strict decrease. -/
theorem counter_decreases_at_int32_max :
    counterOf (IncrementFailedEvictionCounter statusMaxCounter envOK).status <
      counterOf statusMaxCounter := by decide

/-- C7 amended: `upsertConditionPure` and `UpsertCondition` preserve the
counter substructure exactly; `IncrementFailedEvictionCounter` lazily
initializes it and performs the (wrapping) `int32` increment — exactly one
below the `int32` maximum; the performer, the interceptor handler and the
dispatcher leave the counter unchanged or change it only through that
increment, so across any reconciliation whose starting counter is an
in-range value below the maximum the counter never decreases. -/
theorem counter_monotonicity_amended (spec : EvictionRequestSpec)
    (s : EvictionRequestStatus) (env : Env) (t : String) (st : ConditionStatus)
    (rn m : String) :
    counterOf (upsertConditionPure s t st rn m env.now) = counterOf s
  ∧ (UpsertCondition s t st rn m env).status.podEvictionStatus = s.podEvictionStatus
  ∧ (IncrementFailedEvictionCounter s env).status.podEvictionStatus =
      some ⟨wrap32 (counterOf s + 1)⟩
  ∧ (-2147483648 ≤ counterOf s → counterOf s < 2147483647 →
      counterOf (IncrementFailedEvictionCounter s env).status = counterOf s + 1)
  ∧ (counterOf (Perform spec s env).status = counterOf s ∨
      counterOf (Perform spec s env).status = wrap32 (counterOf s + 1))
  ∧ (∀ r, Handle spec s env = .ok r →
      counterOf r.status = counterOf s ∨ counterOf r.status = wrap32 (counterOf s + 1))
  ∧ (∀ r, ReconcileEvictionRequest spec s env = .ok r →
      counterOf r.status = counterOf s ∨ counterOf r.status = wrap32 (counterOf s + 1))
  ∧ (-2147483648 ≤ counterOf s → counterOf s < 2147483647 →
      ∀ r, ReconcileEvictionRequest spec s env = .ok r →
        counterOf s ≤ counterOf r.status) := by
  refine ⟨counterOf_upsertPure s t st rn m env.now, rfl, increment_pes s env, ?_,
    counterOf_perform spec s env,
    fun r h => handle_counter spec s env r h,
    fun r h => reconcile_counter spec s env r h, ?_⟩
  · intro hlo hhi
    rw [counterOf_increment s env]
    exact wrap32_eq_self (counterOf s + 1) (by omega) (by omega)
  · intro hlo hhi r h
    rcases reconcile_counter spec s env r h with heq | hinc
    · omega
    · rw [hinc, wrap32_eq_self (counterOf s + 1) (by omega) (by omega)]
      omega

/-- C7 amended witness: a failed terminal eviction takes the lazily
initialized counter from absent (0) to exactly one. -/
theorem counter_monotonicity_amended_witness :
    counterOf (IncrementFailedEvictionCounter statusEmpty envEvictFail).status =
      counterOf statusEmpty + 1 :=
  (counter_monotonicity_amended specNoInt statusEmpty envEvictFail "" .cTrue "" "").2.2.2.1
    (by decide) (by decide)

/-- C8: `UpsertCondition` keeps the prior transition time when the status
value is unchanged, stamps `now` on a changed or new status value, keeps
condition types unique, defaults the cancellation policy when unset, and
issues exactly one persist call carrying the final status. -/
theorem upsert_condition_contract (s : EvictionRequestStatus) (t : String)
    (st : ConditionStatus) (rn m : String) (env : Env)
    (hnd : (s.conditions.map Condition.ctype).Nodup) :
    (∀ old, getCondition s t = some old → old.status = st →
      getCondition (UpsertCondition s t st rn m env).status t =
        some ⟨t, st, old.lastTransitionTime, rn, m⟩)
  ∧ (∀ old, getCondition s t = some old → old.status ≠ st →
      getCondition (UpsertCondition s t st rn m env).status t =
        some ⟨t, st, env.now, rn, m⟩)
  ∧ (getCondition s t = none →
      getCondition (UpsertCondition s t st rn m env).status t =
        some ⟨t, st, env.now, rn, m⟩)
  ∧ ((UpsertCondition s t st rn m env).status.conditions.map Condition.ctype).Nodup
  ∧ (s.evictionRequestCancellationPolicy = "" →
      (UpsertCondition s t st rn m env).status.evictionRequestCancellationPolicy = Allow)
  ∧ (UpsertCondition s t st rn m env).persists = [(UpsertCondition s t st rn m env).status] := by
  refine ⟨?_, ?_, ?_, ?_, ?_, rfl⟩
  · intro old hold holdst
    show getCondition (upsertConditionPure s t st rn m env.now) t = _
    rw [getCondition_upsertPure, hold]
    simp [holdst]
  · intro old hold holdst
    show getCondition (upsertConditionPure s t st rn m env.now) t = _
    rw [getCondition_upsertPure, hold]
    simp [holdst]
  · intro hnone
    show getCondition (upsertConditionPure s t st rn m env.now) t = _
    rw [getCondition_upsertPure, hnone]
  · show ((upsertConditionPure s t st rn m env.now).conditions.map Condition.ctype).Nodup
    exact nodup_upsertConds s.conditions t st rn m env.now hnd
  · intro hp
    exact upsertPure_policy_default s t st rn m env.now hp

/-- C8 witness: re-upserting the `Evicted` condition with the same status
value but a new reason and message preserves the prior transition time 50. -/
theorem upsert_condition_contract_witness :
    getCondition (UpsertCondition statusWithCond "Evicted" .cTrue "R2" "m2" envOK).status
      "Evicted" = some ⟨"Evicted", .cTrue, 50, "R2", "m2"⟩ :=
  (upsert_condition_contract statusWithCond "Evicted" .cTrue "R2" "m2" envOK (by decide)).1
    ⟨"Evicted", .cTrue, 50, "EvictionSucceeded", "m"⟩ rfl rfl

/-- C9 counterexample: with the pod present and the eviction succeeding but
the status write failing, `UpsertCondition` reports the persist failure yet
`Perform` returns no error — the failure is not propagated. -/
theorem perform_swallows_persist_error :
    (UpsertCondition statusEmpty ConditionTypeEvicted .cTrue ReasonEvictionSucceeded
      "Pod evicted successfully" envPersistFail).error = some .updateStatusError
  ∧ (Perform specNoInt statusEmpty envPersistFail).error = none := by decide

/-- C9 amended: the performer propagates the eviction call's own failure as
an error (so the Work Queue retries), but ignores the error results of its
status-persist calls: after a successful eviction a failing persist is
swallowed and `Perform` returns no error. -/
theorem perform_error_propagation (spec : EvictionRequestSpec)
    (s : EvictionRequestStatus) (env : Env) (ref : LocalPodReference) (u : String)
    (href : spec.target.podRef = some ref) (hpod : env.podGet = .found u) :
    (env.evictErr = true → (Perform spec s env).error = some .evictionAPIError)
  ∧ (env.evictErr = false → (Perform spec s env).error = none) := by
  constructor
  · intro hev
    rw [perform_fail_status spec s env ref u href hpod hev]
  · intro hev
    rw [perform_success_status spec s env ref u href hpod hev]

/-- C9 amended witness: with failing status writes, a failed eviction still
returns the eviction error, and a successful eviction returns no error. -/
theorem perform_error_propagation_witness :
    (Perform specNoInt statusEmpty envPersistFail).error = none :=
  (perform_error_propagation specNoInt statusEmpty envPersistFail ⟨"p", "u"⟩ "u" rfl rfl).2 rfl

/-- C10: the dispatcher dereferences the pod reference before any nil check,
so it panics exactly when `Spec.Target.PodRef` is nil, returns normally
otherwise, and consequently the eviction performer's defensive nil-target
branch is unreachable through the dispatcher. -/
theorem nil_podref_dispatcher_panics (spec : EvictionRequestSpec)
    (s : EvictionRequestStatus) (env : Env) :
    (spec.target.podRef = none → ReconcileEvictionRequest spec s env = .panicked)
  ∧ (∀ ref, spec.target.podRef = some ref → ∃ r, ReconcileEvictionRequest spec s env = .ok r)
  ∧ (∀ r, ReconcileEvictionRequest spec s env = .ok r → r.nilBranchHit = false) :=
  ⟨fun h => reconcile_panics_of_none spec s env h,
   fun ref h => reconcile_total spec s env ref h,
   fun r h => reconcile_nilbranch spec s env r h⟩

/-- C10 witness: a request with a nil pod reference makes the dispatcher
panic. -/
theorem nil_podref_dispatcher_panics_witness :
    ReconcileEvictionRequest specNilRef statusEmpty envOK = .panicked :=
  (nil_podref_dispatcher_panics specNilRef statusEmpty envOK).1 rfl

end EvictionController
